import Mathlib

/-!
Verification of the NAICS lookup-table generation pipeline.

The repository consists of three Python scripts (clean_naics.py,
extract_naics.py, generate_naics.py).  Each reads a spreadsheet of NAICS
rows, filters them to an allow-list of sectors, and emits a generated
module containing three record tables (sectors, categories, facility
types) together with four pure helper functions over those tables.

This file gives a shallow embedding of the three pipelines and of the
generated helper functions.  Rows are modelled as lists of records whose
code column is an optional string (a missing spreadsheet cell is `none`);
Python string operations (strip, regex substitution of a trailing
T-marker, slicing, str.replace) are modelled on `List Char`.
-/

/-- The whitespace characters recognised by the Python `str.strip`
method and by the regex class backslash-s, restricted to ASCII (all
titles and codes in the data are ASCII). -/
def isPySpace (c : Char) : Bool :=
  c = ' ' || c = '\t' || c = '\n' || c = '\r' || c = '\x0b' || c = '\x0c'

/-- Python `str.lstrip`: drop leading whitespace. -/
def lstripL (l : List Char) : List Char := l.dropWhile isPySpace

/-- Python `str.rstrip`: drop trailing whitespace. -/
def rstripL (l : List Char) : List Char := (l.reverse.dropWhile isPySpace).reverse

/-- Python `str.strip`: drop whitespace at both ends. -/
def stripL (l : List Char) : List Char := rstripL (lstripL l)

/-- Leftmost-match substitution of the Python regex `T\s*$` by the empty
string (from clean_naics.py, `re.sub`): scanning left to right, the first
position holding a capital T followed only by whitespace up to the end of
the string starts the match, and the match extends to the end of the
string, so everything from that position on is removed. -/
def subTWS : List Char → List Char
  | [] => []
  | c :: rest => if c = 'T' && rest.all isPySpace then [] else c :: subTWS rest

/-- clean_naics.py `clean_title`: re.sub of the T-marker pattern by the
empty string, then a strip of surrounding whitespace. -/
def clean_title (s : String) : String := (stripL (subTWS s.data)).asString

/-- Python string slicing `s[:n]`. -/
def strTake (n : Nat) (s : String) : String := (s.data.take n).asString

/-- Python `len(s)`. -/
def strLen (s : String) : Nat := s.data.length

/-- Python str.replace of dot-zero by the empty string, not anchored at
the end (generate_naics.py): remove every non-overlapping occurrence of
the two characters dot zero, scanning left to right and continuing after
each removal. -/
def replaceDotZero : List Char → List Char
  | '.' :: '0' :: rest => replaceDotZero rest
  | c :: rest => c :: replaceDotZero rest
  | [] => []

/-- The quote escaping applied to every emitted title:
`.replace('"', backslash-quote).replace("'", backslash-apostrophe)`. -/
def escapeQuotesL (l : List Char) : List Char :=
  l.flatMap (fun c =>
    if c = '"' then ['\\', '"']
    else if c = '\'' then ['\\', '\''] else [c])

/-- Quote escaping on strings. -/
def escapeStr (s : String) : String := (escapeQuotesL s.data).asString

/-- The record shape emitted into the generated module (interface
NAICSCode in the generated TypeScript). -/
structure NAICSCode where
  code : String
  title : String
  level : Nat
  parent : String
deriving Repr, DecidableEq

/-- A row of the `2022 NAICS Structure` sheet as read by clean_naics.py
and extract_naics.py (the change-indicator column is never used); a
missing code cell is `none`. -/
structure Row where
  naicsCode : Option String
  naicsTitle : String
deriving Repr, DecidableEq

/-- A row of the `naics-scian-2022-structure-v1-e` sheet as read by
generate_naics.py: a code cell (`none` when missing), a numeric level and
a class title. -/
structure LRow where
  code : Option String
  level : Nat
  classTitle : String
deriving Repr, DecidableEq

/-- The sector allow-list shared by all three scripts. -/
def eligible_sectors : List String :=
  ["11", "21", "22", "23", "31", "32", "33", "48", "56"]

/-- The three raw manufacturing sector codes. -/
def mfgCodes : List String := ["31", "32", "33"]

/-- `df.dropna(subset=[code]).astype(str)` in clean_naics.py and
extract_naics.py: rows with a missing code cell are dropped, the rest
become (code, title) string pairs. -/
def cleanDropped (rows : List Row) : List (String × String) :=
  rows.filterMap (fun r => r.naicsCode.map (fun c => (c, r.naicsTitle)))

/-- Rows whose code has length 2 and is in the allow-list (sectors_raw in
clean_naics.py / extract_naics.py). -/
def sectorRawFilter (data : List (String × String)) : List (String × String) :=
  data.filter (fun p => strLen p.1 = 2 && eligible_sectors.contains p.1)

/-- The sector-building loop shared by clean_naics.py and
extract_naics.py: walk the filtered rows carrying the manufacturing_found
flag; the first of the raw codes 31/32/33 produces the synthetic record
31-33 Manufacturing, later ones are skipped; other codes produce a record
with the (cleaned, in clean_naics.py) source title.  `titleF` is
`clean_title` for clean_naics.py and the identity for extract_naics.py. -/
def sectorsAux (titleF : String → String) :
    List (String × String) → Bool → List NAICSCode
  | [], _ => []
  | p :: rest, mf =>
    if mfgCodes.contains p.1 then
      if mf then sectorsAux titleF rest mf
      else ⟨"31-33", "Manufacturing", 2, ""⟩ :: sectorsAux titleF rest true
    else ⟨p.1, titleF p.2, 2, ""⟩ :: sectorsAux titleF rest mf

/-- Python code-point comparison of strings (`a <= b` on `str`, the key
order used by `list.sort`), as a Boolean on character lists. -/
def lexLe : List Char → List Char → Bool
  | [], _ => true
  | _ :: _, [] => false
  | a :: as, b :: bs =>
    if a.toNat < b.toNat then true
    else if a.toNat = b.toNat then lexLe as bs else false

/-- The sort key relation `key=lambda x: x[title]` of clean_naics.py. -/
def TitleLe (a b : NAICSCode) : Prop := lexLe a.title.data b.title.data = true

instance : DecidableRel TitleLe := fun a b => by
  unfold TitleLe; infer_instance

/-- Python `list.sort(key=lambda x: x[title])`: a stable sort by title.
Python sorts stably, and a stable sort by a total preorder is unique, so
insertion sort gives the same list. -/
def sortByTitle (l : List NAICSCode) : List NAICSCode := l.insertionSort TitleLe

/-- Escaping applied to the title field when a record is written out. -/
def escapeTitle (r : NAICSCode) : NAICSCode := { r with title := escapeStr r.title }

/-- Fold the raw manufacturing prefixes 31/32/33 to the synthetic sector
code 31-33 (category emission in clean_naics.py / extract_naics.py). -/
def foldMfg (parent : String) : String :=
  if mfgCodes.contains parent then "31-33" else parent

/-- Rows whose code has length 3 and an allow-listed 2-character prefix
(categories in clean_naics.py / extract_naics.py). -/
def catFilter (data : List (String × String)) : List (String × String) :=
  data.filter (fun p => strLen p.1 = 3 && eligible_sectors.contains (strTake 2 p.1))

/-- Rows whose code has length 6 and an allow-listed 2-character prefix
(facility_types in clean_naics.py / extract_naics.py). -/
def typeFilter (data : List (String × String)) : List (String × String) :=
  data.filter (fun p => strLen p.1 = 6 && eligible_sectors.contains (strTake 2 p.1))

/-- A category record as built by clean_naics.py / extract_naics.py:
parent is the 2-character prefix with 31/32/33 folded to 31-33. -/
def catRecord (titleF : String → String) (p : String × String) : NAICSCode :=
  ⟨p.1, titleF p.2, 3, foldMfg (strTake 2 p.1)⟩

/-- A facility-type record as built by clean_naics.py / extract_naics.py:
parent is the 3-character prefix of the code. -/
def typeRecord (titleF : String → String) (p : String × String) : NAICSCode :=
  ⟨p.1, titleF p.2, 6, strTake 3 p.1⟩

/-- FACILITY_SECTORS as emitted by clean_naics.py: build with cleaned
titles, sort by cleaned title, escape quotes on write. -/
def cleanSectors (rows : List Row) : List NAICSCode :=
  (sortByTitle (sectorsAux clean_title (sectorRawFilter (cleanDropped rows)) false)).map
    escapeTitle

/-- FACILITY_CATEGORIES as emitted by clean_naics.py: titles cleaned and
escaped when the dicts are built, then sorted by that stored title. -/
def cleanCategories (rows : List Row) : List NAICSCode :=
  sortByTitle ((catFilter (cleanDropped rows)).map
    (catRecord (fun t => escapeStr (clean_title t))))

/-- FACILITY_TYPES as emitted by clean_naics.py. -/
def cleanTypes (rows : List Row) : List NAICSCode :=
  sortByTitle ((typeFilter (cleanDropped rows)).map
    (typeRecord (fun t => escapeStr (clean_title t))))

/-- FACILITY_SECTORS as emitted by extract_naics.py: same loop but raw
titles and no sorting. -/
def extractSectors (rows : List Row) : List NAICSCode :=
  (sectorsAux id (sectorRawFilter (cleanDropped rows)) false).map escapeTitle

/-- FACILITY_CATEGORIES as emitted by extract_naics.py: source row
order, raw titles escaped on write. -/
def extractCategories (rows : List Row) : List NAICSCode :=
  (catFilter (cleanDropped rows)).map (catRecord escapeStr)

/-- FACILITY_TYPES as emitted by extract_naics.py. -/
def extractTypes (rows : List Row) : List NAICSCode :=
  (typeFilter (cleanDropped rows)).map (typeRecord escapeStr)

/-- Python `str(x)` on an optional cell: a missing value (NaN) prints as
the string nan.  generate_naics.py calls `astype(str)` before `dropna`,
so missing codes become the literal string nan and are never dropped. -/
def pyStr : Option String → String
  | some c => c
  | none => "nan"

/-- The code normalisation of generate_naics.py: `astype(str)` followed
by the str.replace of dot-zero, keeping the level and title columns. -/
def genPrep (lrows : List LRow) : List (String × Nat × String) :=
  lrows.map (fun r => ((replaceDotZero (pyStr r.code).data).asString, r.level, r.classTitle))

/-- `df[df[Level] == n]` in generate_naics.py. -/
def genLevel (n : Nat) (prep : List (String × Nat × String)) :
    List (String × Nat × String) :=
  prep.filter (fun e => e.2.1 = n)

/-- The hard-coded sector display titles of generate_naics.py. -/
def hardcodedTitle (code : String) : String :=
  if code = "11" then "Agriculture, forestry, fishing and hunting"
  else if code = "21" then "Mining, quarrying, and oil and gas extraction"
  else if code = "22" then "Utilities"
  else if code = "23" then "Construction"
  else if mfgCodes.contains code then "Manufacturing"
  else if code = "48" then "Transportation and warehousing"
  else if code = "56" then
    "Administrative and support, waste management and remediation services"
  else ""

/-- FACILITY_SECTORS as emitted by generate_naics.py: for each
allow-listed code in allow-list order, emit one record with the
hard-coded title whenever some level-2 row has that 2-character code
prefix (sector_groups / consolidated_sectors).  The raw codes 31, 32 and
33 each produce their own record; no 31-33 record is ever built. -/
def genSectors (lrows : List LRow) : List NAICSCode :=
  eligible_sectors.filterMap (fun code =>
    if (genLevel 2 (genPrep lrows)).any (fun e => strTake 2 e.1 == code) then
      some ⟨code, escapeStr (hardcodedTitle code), 2, ""⟩
    else none)

/-- FACILITY_CATEGORIES as emitted by generate_naics.py: level-3 rows
with an allow-listed prefix, parent the raw 2-character prefix (no
folding of 31/32/33), source row order. -/
def genCategories (lrows : List LRow) : List NAICSCode :=
  (genLevel 3 (genPrep lrows)).filterMap (fun e =>
    if 2 ≤ strLen e.1 && eligible_sectors.contains (strTake 2 e.1) then
      some ⟨e.1, escapeStr e.2.2, 3, strTake 2 e.1⟩
    else none)

/-- FACILITY_TYPES as emitted by generate_naics.py: level-6 rows with an
allow-listed prefix, parent the 3-character prefix, source row order. -/
def genTypes (lrows : List LRow) : List NAICSCode :=
  (genLevel 6 (genPrep lrows)).filterMap (fun e =>
    if 2 ≤ strLen e.1 && eligible_sectors.contains (strTake 2 e.1) then
      some ⟨e.1, escapeStr e.2.2, 6, strTake 3 e.1⟩
    else none)

/-- The generated helper getFacilityCategoriesBySector (extract_naics.py
and generate_naics.py emit the unsorted variant). -/
def getFacilityCategoriesBySector (cats : List NAICSCode) (sectorCode : String) :
    List NAICSCode :=
  cats.filter (fun c => c.parent == sectorCode)

/-- The generated helper getFacilityCategoriesBySector as emitted by
clean_naics.py, which also sorts the result by title. -/
def getFacilityCategoriesBySectorSorted (cats : List NAICSCode) (sectorCode : String) :
    List NAICSCode :=
  sortByTitle (cats.filter (fun c => c.parent == sectorCode))

/-- The generated helper getFacilityTypesByCategory (unsorted variant). -/
def getFacilityTypesByCategory (types : List NAICSCode) (categoryCode : String) :
    List NAICSCode :=
  types.filter (fun t => t.parent == categoryCode)

/-- The generated helper getFacilityTypesByCategory as emitted by
clean_naics.py, which also sorts the result by title. -/
def getFacilityTypesByCategorySorted (types : List NAICSCode) (categoryCode : String) :
    List NAICSCode :=
  sortByTitle (types.filter (fun t => t.parent == categoryCode))

/-- The generated helper generateNAICSCode, identical in all three
emitted variants: three `Array.find` lookups, then either the type code
or a thrown error.  The embedding is pure, so the three tables passed in
are never modified. -/
def generateNAICSCode (sectors cats types : List NAICSCode)
    (sectorCode categoryCode typeCode : String) : Except String String :=
  let sector := sectors.find? (fun s => s.code == sectorCode)
  let category := cats.find? (fun c => c.code == categoryCode && c.parent == sectorCode)
  let fType := types.find? (fun t => t.code == typeCode && t.parent == categoryCode)
  if sector.isSome && category.isSome && fType.isSome then Except.ok typeCode
  else Except.error "Invalid NAICS code combination"

/-- JavaScript template interpolation of a possibly-undefined record
title: an undefined record prints as the text undefined. -/
def jsTitle : Option NAICSCode → String
  | some r => r.title
  | none => "undefined"

/-- The generated helper getNAICSDescription, identical in all three
emitted variants.  When the category lookup fails, the sector lookup
compares each sector code with the undefined JavaScript value, which is
never equal to a string, so the sector is also undefined. -/
def getNAICSDescription (sectors cats types : List NAICSCode)
    (naicsCode : String) : String :=
  match types.find? (fun t => t.code == naicsCode) with
  | some fType =>
    let category := cats.find? (fun c => c.code == fType.parent)
    let sector :=
      match category with
      | some c => sectors.find? (fun s => s.code == c.parent)
      | none => none
    jsTitle sector ++ " > " ++ jsTitle category ++ " > " ++ fType.title
  | none => "Unknown NAICS code"

/-- Bridge from Boolean list containment to membership. -/
theorem containsIffMem {α : Type} [BEq α] [LawfulBEq α] (l : List α) (a : α) :
    l.contains a = true ↔ a ∈ l := by
  simp [List.contains_iff_exists_mem_beq]

/-- C1: the generated resolveCode helper (generateNAICSCode) returns the
type code unchanged exactly when the sector table has a record whose code
is the given sector code, the category table has a record whose code is
the given category code and whose parent is that sector code, and the
facility-type table has a record whose code is the given type code and
whose parent is that category code; in every other case it signals the
Invalid-NAICS-code-combination error.  The helper is a pure function of
the three tables, so the tables are unchanged when it errors. -/
theorem C1_resolveCode_validates (sectors cats types : List NAICSCode)
    (sectorCode categoryCode typeCode : String) :
    generateNAICSCode sectors cats types sectorCode categoryCode typeCode =
      if (∃ s ∈ sectors, s.code = sectorCode) ∧
         (∃ c ∈ cats, c.code = categoryCode ∧ c.parent = sectorCode) ∧
         (∃ t ∈ types, t.code = typeCode ∧ t.parent = categoryCode) then
        Except.ok typeCode
      else Except.error "Invalid NAICS code combination" := by
  by_cases h : (∃ s ∈ sectors, s.code = sectorCode) ∧
      (∃ c ∈ cats, c.code = categoryCode ∧ c.parent = sectorCode) ∧
      (∃ t ∈ types, t.code = typeCode ∧ t.parent = categoryCode)
  · rw [if_pos h]
    unfold generateNAICSCode
    rw [if_pos]
    simp only [Bool.and_eq_true, List.find?_isSome]
    obtain ⟨⟨s, hs, hs2⟩, ⟨c, hc, hc1, hc2⟩, ⟨t, ht, ht1, ht2⟩⟩ := h
    exact ⟨⟨⟨s, hs, by simp [hs2]⟩, ⟨c, hc, by simp [hc1, hc2]⟩⟩, ⟨t, ht, by simp [ht1, ht2]⟩⟩
  · rw [if_neg h]
    unfold generateNAICSCode
    rw [if_neg]
    intro hcon
    apply h
    simp only [Bool.and_eq_true, List.find?_isSome] at hcon
    obtain ⟨⟨⟨s, hs, hs2⟩, ⟨c, hc, hc2⟩⟩, ⟨t, ht, ht2⟩⟩ := hcon
    simp only [Bool.and_eq_true, beq_iff_eq] at hs2 hc2 ht2
    exact ⟨⟨s, hs, hs2⟩, ⟨c, hc, hc2.1, hc2.2⟩, ⟨t, ht, ht2.1, ht2.2⟩⟩

theorem rstripL_eq_nil_iff (l : List Char) :
    rstripL l = [] ↔ l.all isPySpace = true := by
  simp [rstripL, List.dropWhile_eq_nil_iff, List.all_eq_true, List.mem_reverse]

theorem rstripL_cons (c : Char) (l : List Char) :
    rstripL (c :: l) =
      if rstripL l = [] then (if isPySpace c then [] else [c]) else c :: rstripL l := by
  unfold rstripL
  rw [show (c :: l).reverse = l.reverse ++ [c] by simp, List.dropWhile_append]
  by_cases h : List.dropWhile isPySpace l.reverse = []
  · by_cases hc : isPySpace c <;> simp [h, List.dropWhile, hc]
  · simp [h, List.isEmpty_iff]

theorem subTWS_spec (l : List Char) :
    subTWS l = if (rstripL l).getLast? = some 'T' then (rstripL l).dropLast else l := by
  induction l with
  | nil => simp [subTWS, rstripL]
  | cons c rest ih =>
    rw [subTWS, rstripL_cons]
    by_cases hm : c = 'T' ∧ rest.all isPySpace = true
    · have hnil : rstripL rest = [] := (rstripL_eq_nil_iff rest).mpr hm.2
      have hT : isPySpace 'T' = false := by decide
      simp [hm.1, hm.2, hnil, hT]
    · have hbool : (c = 'T' && rest.all isPySpace) = false := by
        cases h1 : rest.all isPySpace
        · simp [h1]
        · have hc : ¬ c = 'T' := fun hcc => hm ⟨hcc, h1⟩
          simp [hc]
      rw [if_neg (by simp [hbool])]
      by_cases hnil : rstripL rest = []
      · have hall : rest.all isPySpace = true := (rstripL_eq_nil_iff rest).mp hnil
        have hc : ¬ c = 'T' := fun hc => hm ⟨hc, hall⟩
        have ihr : subTWS rest = rest := by
          rw [ih, if_neg]; simp [hnil]
        by_cases hsp : isPySpace c <;> simp [hnil, hsp, hc, ihr, Ne.symm hc]
      · rw [if_neg hnil]
        obtain ⟨x, xs, hxx⟩ := List.exists_cons_of_ne_nil hnil
        by_cases hl : (rstripL rest).getLast? = some 'T'
        · have ihr : subTWS rest = (rstripL rest).dropLast := by rw [ih, if_pos hl]
          rw [ihr, if_pos, hxx, List.dropLast_cons₂]
          rw [hxx] at hl ⊢
          rw [List.getLast?_cons_cons]
          exact hl
        · have ihr : subTWS rest = rest := by rw [ih, if_neg hl]
          rw [ihr, if_neg]
          rw [hxx, List.getLast?_cons_cons]
          rw [hxx] at hl
          exact hl

theorem clean_title_spec (s : String) :
    clean_title s =
      if (rstripL s.data).getLast? = some 'T'
      then (stripL (rstripL s.data).dropLast).asString
      else (stripL s.data).asString := by
  unfold clean_title
  rw [subTWS_spec]
  by_cases h : (rstripL s.data).getLast? = some 'T' <;> simp [h]

theorem C6_counterexample :
    (rstripL (" Utilities" : String).data).getLast? ≠ some 'T' ∧
    clean_title " Utilities" ≠ " Utilities" := by decide

theorem C6_clean_title_amended (s : String) :
    clean_title "Crop Production T" = "Crop Production" ∧
    clean_title "Utilities" = "Utilities" ∧
    ((rstripL s.data).getLast? ≠ some 'T' → clean_title s = (stripL s.data).asString) ∧
    ((rstripL s.data).getLast? = some 'T' →
      clean_title s = (stripL (rstripL s.data).dropLast).asString) := by
  refine ⟨by decide, by decide, ?_, ?_⟩ <;> intro h <;> rw [clean_title_spec] <;> simp [h]

theorem C6_witness : clean_title "  Mining  " = "Mining" := by
  have h := (C6_clean_title_amended "  Mining  ").2.2.1 (by decide)
  exact h.trans (by decide)

theorem C9_trailing_T_no_space (s : String)
    (h : (rstripL s.data).getLast? = some 'T') :
    clean_title s = (stripL (rstripL s.data).dropLast).asString := by
  rw [clean_title_spec]; simp [h]

theorem C9_witness : clean_title "CONTRACT" = "CONTRAC" := by
  have h := C9_trailing_T_no_space "CONTRACT" (by decide)
  exact h.trans (by decide)
/-- A string joined from three titles with two separators always differs
from the fallback string, which contains no separator character. -/
theorem joined_ne_fallback (a b c : String) :
    a ++ " > " ++ b ++ " > " ++ c ≠ "Unknown NAICS code" := by
  intro h
  have hd := congrArg String.data h
  simp only [String.data_append] at hd
  have hmem : '>' ∈ a.data ++ " > ".data ++ b.data ++ " > ".data ++ c.data := by
    simp
  rw [hd] at hmem
  revert hmem; decide

/-- C2 counterexample: on a table set where the facility-type record
exists but its parent matches no category, describe does not return the
fallback string; it returns a joined string with the JavaScript text
undefined in place of the missing titles. -/
theorem C2_counterexample :
    getNAICSDescription [] [] [⟨"111110", "Soybean Farming", 6, "111"⟩] "111110" =
      "undefined > undefined > Soybean Farming" ∧
    getNAICSDescription [] [] [⟨"111110", "Soybean Farming", 6, "111"⟩] "111110" ≠
      "Unknown NAICS code" := by decide

/-- C2 (amended): describe never throws; it returns the fallback string
exactly when no facility-type record has the given code, and when the
lookups of the type, of its category and of that category parent sector
all succeed it returns the three titles joined by the separator.  A
matching type with a broken parent chain therefore does not produce the
fallback but a joined string with undefined components. -/
theorem C2_describe_amended (sectors cats types : List NAICSCode) (code : String) :
    (getNAICSDescription sectors cats types code = "Unknown NAICS code" ↔
      ¬ ∃ t ∈ types, t.code = code) ∧
    (∀ fT c s, types.find? (fun t => t.code == code) = some fT →
      cats.find? (fun x => x.code == fT.parent) = some c →
      sectors.find? (fun x => x.code == c.parent) = some s →
      getNAICSDescription sectors cats types code =
        s.title ++ " > " ++ c.title ++ " > " ++ fT.title) := by
  constructor
  · cases hf : types.find? (fun t => t.code == code) with
    | none =>
      have hres : getNAICSDescription sectors cats types code = "Unknown NAICS code" := by
        unfold getNAICSDescription; rw [hf]
      rw [List.find?_eq_none] at hf
      refine ⟨fun _ => ?_, fun _ => hres⟩
      rintro ⟨t, ht, hc⟩
      exact hf t ht (by simp [hc])
    | some fT =>
      have hne : getNAICSDescription sectors cats types code ≠ "Unknown NAICS code" := by
        unfold getNAICSDescription; rw [hf]
        exact joined_ne_fallback _ _ _
      have hmem := List.mem_of_find?_eq_some hf
      have hcode : fT.code = code := by simpa using List.find?_some hf
      exact ⟨fun h => absurd h hne, fun h => absurd ⟨fT, hmem, hcode⟩ h⟩
  · intro fT c s h1 h2 h3
    unfold getNAICSDescription
    rw [h1]
    simp [h2, h3, jsTitle]

/-- A one-record sector table used to instantiate theorems on concrete
inputs. -/
def demoSectors : List NAICSCode := [⟨"11", "Agriculture", 2, ""⟩]

/-- A one-record category table used to instantiate theorems on concrete
inputs. -/
def demoCats : List NAICSCode := [⟨"111", "Crop Production", 3, "11"⟩]

/-- A one-record facility-type table used to instantiate theorems on
concrete inputs. -/
def demoTypes : List NAICSCode := [⟨"111110", "Soybean Farming", 6, "111"⟩]

/-- Witness for C2 at a concrete resolvable chain. -/
theorem C2_witness :
    getNAICSDescription demoSectors demoCats demoTypes "111110" =
      "Agriculture > Crop Production > Soybean Farming" := by
  have h := (C2_describe_amended demoSectors demoCats demoTypes "111110").2
    ⟨"111110", "Soybean Farming", 6, "111"⟩ ⟨"111", "Crop Production", 3, "11"⟩
    ⟨"11", "Agriculture", 2, ""⟩ (by decide) (by decide) (by decide)
  exact h.trans (by decide)
/-- C10: the generated lookup helpers never throw: for a code that no
record has as parent they return the empty list, in both the plain and
the sorting variants. -/
theorem C10_lookups_empty (cats types : List NAICSCode) (code : String)
    (hc : ∀ c ∈ cats, c.parent ≠ code) (ht : ∀ t ∈ types, t.parent ≠ code) :
    getFacilityCategoriesBySector cats code = [] ∧
    getFacilityCategoriesBySectorSorted cats code = [] ∧
    getFacilityTypesByCategory types code = [] ∧
    getFacilityTypesByCategorySorted types code = [] := by
  have h1 : cats.filter (fun c => c.parent == code) = [] := by
    rw [List.filter_eq_nil_iff]
    intro c hcm
    simp [hc c hcm]
  have h2 : types.filter (fun t => t.parent == code) = [] := by
    rw [List.filter_eq_nil_iff]
    intro t htm
    simp [ht t htm]
  refine ⟨h1, ?_, h2, ?_⟩
  · unfold getFacilityCategoriesBySectorSorted
    rw [h1]; rfl
  · unfold getFacilityTypesByCategorySorted
    rw [h2]; rfl

/-- Witness for C10 on concrete tables and a code matching no parent. -/
theorem C10_witness :
    getFacilityCategoriesBySector demoCats "99" = [] ∧
    getFacilityCategoriesBySectorSorted demoCats "99" = [] ∧
    getFacilityTypesByCategory demoTypes "99" = [] ∧
    getFacilityTypesByCategorySorted demoTypes "99" = [] :=
  C10_lookups_empty demoCats demoTypes "99" (by decide) (by decide)

/-- C4 counterexample: generate_naics.py keeps the raw 2-character prefix
31 as the parent of an emitted category instead of folding it to 31-33. -/
theorem C4_counterexample :
    ¬ (∀ r ∈ genCategories [⟨some "311", 3, "t"⟩],
        r.parent = foldMfg (strTake 2 r.code)) := by decide

/-- C4 (amended): in all three scripts every emitted facility-type
record has parent equal to the first 3 characters of its own code; in
clean_naics.py and extract_naics.py every emitted category record has
parent equal to the first 2 characters of its own code with the
manufacturing prefixes 31/32/33 folded to 31-33, while generate_naics.py
emits the raw 2-character prefix without folding. -/
theorem C4_parent_derivation_amended (rows : List Row) (lrows : List LRow) :
    (∀ r ∈ cleanTypes rows, r.parent = strTake 3 r.code) ∧
    (∀ r ∈ extractTypes rows, r.parent = strTake 3 r.code) ∧
    (∀ r ∈ genTypes lrows, r.parent = strTake 3 r.code) ∧
    (∀ r ∈ cleanCategories rows, r.parent = foldMfg (strTake 2 r.code)) ∧
    (∀ r ∈ extractCategories rows, r.parent = foldMfg (strTake 2 r.code)) ∧
    (∀ r ∈ genCategories lrows, r.parent = strTake 2 r.code) := by
  refine ⟨?_, ?_, ?_, ?_, ?_, ?_⟩
  · intro r hr
    unfold cleanTypes sortByTitle at hr
    rw [(List.perm_insertionSort TitleLe _).mem_iff] at hr
    obtain ⟨p, _, hp⟩ := List.mem_map.mp hr
    rw [← hp]; rfl
  · intro r hr
    obtain ⟨p, _, hp⟩ := List.mem_map.mp hr
    rw [← hp]; rfl
  · intro r hr
    obtain ⟨e, _, he⟩ := List.mem_filterMap.mp hr
    by_cases hc : (decide (2 ≤ strLen e.1) && eligible_sectors.contains (strTake 2 e.1)) = true
    · rw [if_pos hc] at he
      rw [← Option.some_inj.mp he]
    · rw [if_neg hc] at he
      exact Option.noConfusion he
  · intro r hr
    unfold cleanCategories sortByTitle at hr
    rw [(List.perm_insertionSort TitleLe _).mem_iff] at hr
    obtain ⟨p, _, hp⟩ := List.mem_map.mp hr
    rw [← hp]; rfl
  · intro r hr
    obtain ⟨p, _, hp⟩ := List.mem_map.mp hr
    rw [← hp]; rfl
  · intro r hr
    obtain ⟨e, _, he⟩ := List.mem_filterMap.mp hr
    by_cases hc : (decide (2 ≤ strLen e.1) && eligible_sectors.contains (strTake 2 e.1)) = true
    · rw [if_pos hc] at he
      rw [← Option.some_inj.mp he]
    · rw [if_neg hc] at he
      exact Option.noConfusion he

/-- Witness for C4 at concrete inputs of both folding behaviours. -/
theorem C4_witness :
    (⟨"311", "t", 3, "31"⟩ : NAICSCode).parent =
      strTake 2 (⟨"311", "t", 3, "31"⟩ : NAICSCode).code ∧
    (⟨"311", "t", 3, "31-33"⟩ : NAICSCode).parent =
      foldMfg (strTake 2 (⟨"311", "t", 3, "31-33"⟩ : NAICSCode).code) := by
  constructor
  · exact (C4_parent_derivation_amended [] [⟨some "311", 3, "t"⟩]).2.2.2.2.2
      ⟨"311", "t", 3, "31"⟩ (by decide)
  · exact (C4_parent_derivation_amended [⟨some "311", "t"⟩] []).2.2.2.1
      ⟨"311", "t", 3, "31-33"⟩ (by decide)
/-- Code-point comparison is total. -/
theorem lexLe_total : ∀ a b : List Char, (lexLe a b || lexLe b a) = true := by
  intro a
  induction a with
  | nil => intro b; simp [lexLe]
  | cons x xs ih =>
    intro b
    cases b with
    | nil => simp [lexLe]
    | cons y ys =>
      simp only [lexLe]
      rcases Nat.lt_trichotomy x.toNat y.toNat with h | h | h
      · simp [h]
      · simp [h, Nat.lt_irrefl, ih ys]
      · have hne : x.toNat ≠ y.toNat := by omega
        have hnlt : ¬ x.toNat < y.toNat := by omega
        simp [hnlt, hne, h]

/-- Code-point comparison is transitive. -/
theorem lexLe_trans : ∀ a b c : List Char,
    lexLe a b = true → lexLe b c = true → lexLe a c = true := by
  intro a
  induction a with
  | nil => intro b c _ _; simp [lexLe]
  | cons x xs ih =>
    intro b c hab hbc
    cases b with
    | nil => simp [lexLe] at hab
    | cons y ys =>
      cases c with
      | nil => simp [lexLe] at hbc
      | cons z zs =>
        simp only [lexLe] at hab hbc ⊢
        by_cases h1 : x.toNat < y.toNat
        · by_cases h2 : y.toNat < z.toNat
          · have h3 : x.toNat < z.toNat := by omega
            simp [h3]
          · by_cases h4 : y.toNat = z.toNat
            · have h3 : x.toNat < z.toNat := by omega
              simp [h3]
            · simp [h2, h4] at hbc
        · by_cases h5 : x.toNat = y.toNat
          · by_cases h2 : y.toNat < z.toNat
            · have h3 : x.toNat < z.toNat := by omega
              simp [h3]
            · by_cases h4 : y.toNat = z.toNat
              · have h3 : ¬ x.toNat < z.toNat := by omega
                have h6 : x.toNat = z.toNat := by omega
                simp [h1, h5] at hab
                simp [h2, h4] at hbc
                simp [h3, h6]
                exact ih ys zs hab hbc
              · simp [h2, h4] at hbc
          · simp [h1, h5] at hab
instance : IsTotal NAICSCode TitleLe :=
  ⟨fun a b => by
    unfold TitleLe
    rcases Bool.or_eq_true_iff.mp (lexLe_total a.title.data b.title.data) with h | h
    · exact Or.inl h
    · exact Or.inr h⟩

instance : IsTrans NAICSCode TitleLe :=
  ⟨fun _ _ _ hab hbc => lexLe_trans _ _ _ hab hbc⟩

/-- The modelled Python sort really sorts by title. -/
theorem sortByTitle_sorted (l : List NAICSCode) : List.Sorted TitleLe (sortByTitle l) :=
  List.sorted_insertionSort TitleLe l

/-- The modelled Python sort permutes its input. -/
theorem sortByTitle_perm (l : List NAICSCode) : (sortByTitle l).Perm l :=
  List.perm_insertionSort TitleLe l

/-- Codes of records built by a filterMap whose emitted code is the key
of the source element form a sublist of the keys, hence appear in source
order. -/
theorem map_code_filterMap_sublist {α : Type} (key : α → String)
    (f : α → Option NAICSCode) (hf : ∀ e r, f e = some r → r.code = key e) :
    ∀ l : List α, ((l.filterMap f).map NAICSCode.code).Sublist (l.map key) := by
  intro l
  induction l with
  | nil => simp
  | cons e rest ih =>
    rw [List.filterMap_cons]
    cases hfe : f e with
    | none => exact (List.map_cons _ _ _) ▸ ih.cons (key e)
    | some r =>
      rw [List.map_cons, List.map_cons, hf e r hfe]
      exact ih.cons₂ (key e)

/-- The inputs refuting C7: two categories whose source order is the
reverse of their alphabetical title order. -/
def c7rows : List Row := [⟨some "111", "B"⟩, ⟨some "112", "A"⟩]

/-- The level-annotated variant of the same inputs. -/
def c7lrows : List LRow := [⟨some "111", 3, "B"⟩, ⟨some "112", 3, "A"⟩]

/-- C7 counterexample: on a concrete workbook both extract_naics.py and
generate_naics.py emit the category table out of alphabetical order, so
at most one of the three variants sorts; clean_naics.py does sort it. -/
theorem C7_counterexample :
    ¬ List.Sorted TitleLe (extractCategories c7rows) ∧
    ¬ List.Sorted TitleLe (genCategories c7lrows) ∧
    List.Sorted TitleLe (cleanCategories c7rows) := by
  refine ⟨?_, ?_, ?_⟩ <;> decide

/-- C7 (amended): exactly one of the three scripts, clean_naics.py,
sorts each emitted table alphabetically by cleaned title (the sector
list is sorted before the quote escaping of the write step, the category
and facility-type tables carry their sort keys); extract_naics.py and
generate_naics.py emit category and facility-type records in source row
order, and generate_naics.py emits its sector records in allow-list
order. -/
theorem C7_sorting_amended (rows : List Row) (lrows : List LRow) :
    List.Sorted TitleLe
      (sortByTitle (sectorsAux clean_title (sectorRawFilter (cleanDropped rows)) false)) ∧
    List.Sorted TitleLe (cleanCategories rows) ∧
    List.Sorted TitleLe (cleanTypes rows) ∧
    ((extractCategories rows).map NAICSCode.code).Sublist
      ((cleanDropped rows).map Prod.fst) ∧
    ((extractTypes rows).map NAICSCode.code).Sublist
      ((cleanDropped rows).map Prod.fst) ∧
    ((genCategories lrows).map NAICSCode.code).Sublist
      ((genPrep lrows).map Prod.fst) ∧
    ((genTypes lrows).map NAICSCode.code).Sublist
      ((genPrep lrows).map Prod.fst) ∧
    ((genSectors lrows).map NAICSCode.code).Sublist eligible_sectors := by
  refine ⟨sortByTitle_sorted _, sortByTitle_sorted _, sortByTitle_sorted _, ?_, ?_, ?_, ?_, ?_⟩
  · unfold extractCategories
    rw [List.map_map]
    have : (NAICSCode.code ∘ catRecord escapeStr) = Prod.fst := rfl
    rw [this]
    exact (List.filter_sublist _).map Prod.fst
  · unfold extractTypes
    rw [List.map_map]
    have : (NAICSCode.code ∘ typeRecord escapeStr) = Prod.fst := rfl
    rw [this]
    exact (List.filter_sublist _).map Prod.fst
  · refine List.Sublist.trans
      (map_code_filterMap_sublist Prod.fst _ ?_ (genLevel 3 (genPrep lrows)))
      ((List.filter_sublist _).map Prod.fst)
    intro e r he
    by_cases hc : (decide (2 ≤ strLen e.1) && eligible_sectors.contains (strTake 2 e.1)) = true
    · rw [if_pos hc] at he
      rw [← Option.some_inj.mp he]
    · rw [if_neg hc] at he
      exact Option.noConfusion he
  · refine List.Sublist.trans
      (map_code_filterMap_sublist Prod.fst _ ?_ (genLevel 6 (genPrep lrows)))
      ((List.filter_sublist _).map Prod.fst)
    intro e r he
    by_cases hc : (decide (2 ≤ strLen e.1) && eligible_sectors.contains (strTake 2 e.1)) = true
    · rw [if_pos hc] at he
      rw [← Option.some_inj.mp he]
    · rw [if_neg hc] at he
      exact Option.noConfusion he
  · unfold genSectors
    have h := map_code_filterMap_sublist (α := String) id
      (fun code => if (genLevel 2 (genPrep lrows)).any (fun x => strTake 2 x.1 == code) then
        some ⟨code, escapeStr (hardcodedTitle code), 2, ""⟩ else none)
      (fun e r he => by
        dsimp only at he
        by_cases hc : ((genLevel 2 (genPrep lrows)).any fun x => strTake 2 x.1 == e) = true
        · rw [if_pos hc] at he
          exact congrArg NAICSCode.code (Option.some_inj.mp he).symm
        · rw [if_neg hc] at he
          exact Option.noConfusion he)
      eligible_sectors
    rw [List.map_id] at h
    exact h
/-- In the sector loop the synthetic 31-33 record is emitted exactly
once, when the flag is still unset and some filtered row carries one of
the raw manufacturing codes. -/
theorem sectorsAux_countP_3133 (titleF : String → String) :
    ∀ (l : List (String × String)) (mf : Bool),
    (∀ p ∈ l, p.1 ≠ "31-33") →
    (sectorsAux titleF l mf).countP (fun r => r.code == "31-33") =
      if mf then 0 else if l.any (fun p => mfgCodes.contains p.1) then 1 else 0 := by
  intro l
  induction l with
  | nil => intro mf _; cases mf <;> simp [sectorsAux]
  | cons p rest ih =>
    intro mf h
    have hrest : ∀ q ∈ rest, q.1 ≠ "31-33" := fun q hq => h q (List.mem_cons_of_mem p hq)
    have hp : p.1 ≠ "31-33" := h p (List.mem_cons_self p rest)
    by_cases hm : mfgCodes.contains p.1 = true
    · cases mf with
      | true =>
        have hstep : sectorsAux titleF (p :: rest) true = sectorsAux titleF rest true := by
          simp only [sectorsAux]; rw [if_pos hm, if_pos trivial]
        rw [hstep, ih true hrest]
        simp
      | false =>
        have hstep : sectorsAux titleF (p :: rest) false =
            ⟨"31-33", "Manufacturing", 2, ""⟩ :: sectorsAux titleF rest true := by
          simp only [sectorsAux]; rw [if_pos hm, if_neg (by simp)]
        have hor : ((p :: rest).any fun q => mfgCodes.contains q.1) = true := by
          rw [List.any_cons, hm, Bool.true_or]
        rw [hstep, List.countP_cons, ih true hrest, hor]
        simp
    · cases mf with
      | true =>
        have hstep : sectorsAux titleF (p :: rest) true =
            ⟨p.1, titleF p.2, 2, ""⟩ :: sectorsAux titleF rest true := by
          simp only [sectorsAux]; rw [if_neg hm]
        have hcode : ((⟨p.1, titleF p.2, 2, ""⟩ : NAICSCode).code == "31-33") = false := by
          simp [hp]
        rw [hstep, List.countP_cons, ih true hrest, hcode]
        simp
      | false =>
        have hstep : sectorsAux titleF (p :: rest) false =
            ⟨p.1, titleF p.2, 2, ""⟩ :: sectorsAux titleF rest false := by
          simp only [sectorsAux]; rw [if_neg hm]
        have hcode : ((⟨p.1, titleF p.2, 2, ""⟩ : NAICSCode).code == "31-33") = false := by
          simp [hp]
        rw [Bool.not_eq_true] at hm
        have hor : ((p :: rest).any fun q => mfgCodes.contains q.1)
            = rest.any fun q => mfgCodes.contains q.1 := by
          rw [List.any_cons, hm, Bool.false_or]
        rw [hstep, List.countP_cons, ih false hrest, hcode, hor]
        simp

/-- The sector loop never emits a record carrying one of the raw codes
31, 32 or 33. -/
theorem sectorsAux_countP_mfg (titleF : String → String) :
    ∀ (l : List (String × String)) (mf : Bool),
    (sectorsAux titleF l mf).countP (fun r => mfgCodes.contains r.code) = 0 := by
  intro l
  induction l with
  | nil => intro mf; simp [sectorsAux]
  | cons p rest ih =>
    intro mf
    by_cases hm : mfgCodes.contains p.1 = true
    · cases mf with
      | true =>
        have hstep : sectorsAux titleF (p :: rest) true = sectorsAux titleF rest true := by
          simp only [sectorsAux]; rw [if_pos hm, if_pos trivial]
        rw [hstep]
        exact ih true
      | false =>
        have hstep : sectorsAux titleF (p :: rest) false =
            ⟨"31-33", "Manufacturing", 2, ""⟩ :: sectorsAux titleF rest true := by
          simp only [sectorsAux]; rw [if_pos hm, if_neg (by simp)]
        rw [hstep, List.countP_cons, ih true]
        decide
    · have hstep : sectorsAux titleF (p :: rest) mf =
          ⟨p.1, titleF p.2, 2, ""⟩ :: sectorsAux titleF rest mf := by
        simp only [sectorsAux]; rw [if_neg hm]
      rw [hstep, List.countP_cons, ih mf]
      have hm2 : p.1 ∉ mfgCodes := fun hmem => hm ((containsIffMem _ _).mpr hmem)
      simp [hm2]

/-- A row surviving the 2-character sector filter cannot carry the
5-character synthetic code. -/
theorem sectorRawFilter_ne_3133 (data : List (String × String)) :
    ∀ p ∈ sectorRawFilter data, p.1 ≠ "31-33" := by
  intro p hp hq
  have h := (List.mem_filter.mp hp).2
  rw [hq] at h
  revert h; decide

/-- Counting a record code is invariant under the title escaping of the
write step. -/
theorem countP_code_map_escape (p : String → Bool) (l : List NAICSCode) :
    (l.map escapeTitle).countP (fun r => p r.code) = l.countP (fun r => p r.code) := by
  rw [List.countP_map]; rfl

/-- Counting records is invariant under the modelled sort. -/
theorem countP_sortByTitle (p : NAICSCode → Bool) (l : List NAICSCode) :
    (sortByTitle l).countP p = l.countP p :=
  (sortByTitle_perm l).countP_eq p

/-- A filterMap over a duplicate-free key list whose records carry their
key as code emits exactly one record with a given key of the list when
the function fires there, and none otherwise. -/
theorem countP_code_filterMap_eligible (f : String → Option NAICSCode)
    (hf : ∀ c r, f c = some r → r.code = c) (m : String) :
    ∀ l : List String, l.Nodup → m ∈ l →
    (l.filterMap f).countP (fun r => r.code == m) = if (f m).isSome then 1 else 0 := by
  intro l
  induction l with
  | nil => intro _ hm; cases hm
  | cons c rest ih =>
    intro hnd hm
    have hzero : m ∉ rest → (rest.filterMap f).countP (fun r => r.code == m) = 0 := by
      intro hnm
      rw [List.countP_eq_zero]
      intro r hr
      obtain ⟨c2, hc2, hfc2⟩ := List.mem_filterMap.mp hr
      rw [hf c2 r hfc2]
      simp only [beq_iff_eq]
      intro heq
      exact hnm (heq ▸ hc2)
    rw [List.filterMap_cons]
    rcases List.mem_cons.mp hm with rfl | hmr
    · have hnm : m ∉ rest := (List.nodup_cons.mp hnd).1
      cases hfm : f m with
      | none => simp [hfm, hzero hnm]
      | some r =>
        rw [List.countP_cons, hzero hnm, hf m r hfm]
        simp [hfm]
    · have hcm : c ≠ m := fun h => (List.nodup_cons.mp hnd).1 (h ▸ hmr)
      have ihr := ih (List.nodup_cons.mp hnd).2 hmr
      cases hfc : f c with
      | none => exact ihr
      | some r =>
        rw [List.countP_cons, ihr, hf c r hfc]
        simp [hcm]
/-- The manufacturing codes all belong to the allow-list. -/
theorem mfg_subset_eligible : ∀ m ∈ mfgCodes, m ∈ eligible_sectors := by decide

/-- generate_naics.py never emits a sector record with the synthetic
code 31-33: every emitted sector code is one of the raw allow-list
codes. -/
theorem genSectors_no_3133 (lrows : List LRow) :
    (genSectors lrows).countP (fun r => r.code == "31-33") = 0 := by
  rw [List.countP_eq_zero]
  intro r hr
  obtain ⟨c, hc, hfc⟩ := List.mem_filterMap.mp hr
  have hcode : r.code = c := by
    by_cases hany : ((genLevel 2 (genPrep lrows)).any fun x => strTake 2 x.1 == c) = true
    · rw [if_pos hany] at hfc
      exact congrArg NAICSCode.code (Option.some_inj.mp hfc).symm
    · rw [if_neg hany] at hfc
      exact Option.noConfusion hfc
  simp only [beq_iff_eq, hcode]
  intro heq
  rw [heq] at hc
  revert hc; decide

/-- For each raw manufacturing code, generate_naics.py emits exactly one
sector record with that raw code when a level-2 row carries the prefix,
none otherwise. -/
theorem genSectors_countP_raw (lrows : List LRow) (m : String)
    (hm : m ∈ eligible_sectors) :
    (genSectors lrows).countP (fun r => r.code == m) =
      if (genLevel 2 (genPrep lrows)).any (fun e => strTake 2 e.1 == m) then 1 else 0 := by
  unfold genSectors
  rw [countP_code_filterMap_eligible _ ?hf m eligible_sectors (by decide) hm]
  case hf =>
    intro c r he
    by_cases hany : ((genLevel 2 (genPrep lrows)).any fun x => strTake 2 x.1 == c) = true
    · rw [if_pos hany] at he
      exact congrArg NAICSCode.code (Option.some_inj.mp he).symm
    · rw [if_neg hany] at he
      exact Option.noConfusion he
  cases hany : (genLevel 2 (genPrep lrows)).any fun e => strTake 2 e.1 == m <;>
    simp [hany]

/-- The workbook refuting C3: all three raw manufacturing sector rows
present at level 2. -/
def c3lrows : List LRow := [⟨some "31", 2, "x"⟩, ⟨some "32", 2, "y"⟩, ⟨some "33", 2, "z"⟩]

/-- C3 counterexample: on a workbook holding the three raw rows 31, 32
and 33, generate_naics.py emits no 31-33 sector record at all and a
separate record with code 32 (and likewise 31 and 33). -/
theorem C3_counterexample :
    (genSectors c3lrows).countP (fun r => r.code == "31-33") = 0 ∧
    (genSectors c3lrows).countP (fun r => r.code == "32") = 1 := by
  constructor <;> decide

/-- C3 (amended): clean_naics.py and extract_naics.py emit exactly one
31-33 sector record when at least one of the raw eligible 2-digit rows
31, 32, 33 is present and none when none is present, and never emit
separate records with the raw codes 31, 32 or 33; generate_naics.py
instead never emits a 31-33 record and emits one separate record per
raw manufacturing code whose prefix occurs among the level-2 rows. -/
theorem C3_manufacturing_amended (rows : List Row) (lrows : List LRow) :
    ((cleanSectors rows).countP (fun r => r.code == "31-33") =
      if (sectorRawFilter (cleanDropped rows)).any (fun p => mfgCodes.contains p.1)
      then 1 else 0) ∧
    ((cleanSectors rows).countP (fun r => mfgCodes.contains r.code) = 0) ∧
    ((extractSectors rows).countP (fun r => r.code == "31-33") =
      if (sectorRawFilter (cleanDropped rows)).any (fun p => mfgCodes.contains p.1)
      then 1 else 0) ∧
    ((extractSectors rows).countP (fun r => mfgCodes.contains r.code) = 0) ∧
    ((genSectors lrows).countP (fun r => r.code == "31-33") = 0) ∧
    (∀ m ∈ mfgCodes, (genSectors lrows).countP (fun r => r.code == m) =
      if (genLevel 2 (genPrep lrows)).any (fun e => strTake 2 e.1 == m) then 1 else 0) := by
  refine ⟨?_, ?_, ?_, ?_, genSectors_no_3133 lrows, ?_⟩
  · unfold cleanSectors
    rw [countP_code_map_escape (fun c => c == "31-33"), countP_sortByTitle,
      sectorsAux_countP_3133 clean_title _ false (sectorRawFilter_ne_3133 _)]
    simp
  · unfold cleanSectors
    rw [countP_code_map_escape (fun c => mfgCodes.contains c), countP_sortByTitle,
      sectorsAux_countP_mfg clean_title _ false]
  · unfold extractSectors
    rw [countP_code_map_escape (fun c => c == "31-33"),
      sectorsAux_countP_3133 id _ false (sectorRawFilter_ne_3133 _)]
    simp
  · unfold extractSectors
    rw [countP_code_map_escape (fun c => mfgCodes.contains c),
      sectorsAux_countP_mfg id _ false]
  · intro m hm
    exact genSectors_countP_raw lrows m (mfg_subset_eligible m hm)

/-- The workbook witnessing the amended C3 for the clean variant. -/
def c3rows : List Row := [⟨some "31", "A"⟩, ⟨some "11", "B"⟩]

/-- Witness for C3 at concrete workbooks. -/
theorem C3_witness :
    (cleanSectors c3rows).countP (fun r => r.code == "31-33") = 1 ∧
    (genSectors c3lrows).countP (fun r => r.code == "32") = 1 := by
  have h := C3_manufacturing_amended c3rows c3lrows
  exact ⟨h.1.trans (by decide), (h.2.2.2.2.2 "32" (by decide)).trans (by decide)⟩
/-- A filtered row with a non-manufacturing code yields a sector record
carrying that code, whatever the flag state. -/
theorem sectorsAux_mem_of_nonmfg (titleF : String → String) :
    ∀ (l : List (String × String)) (mf : Bool) (p : String × String), p ∈ l →
    mfgCodes.contains p.1 = false →
    ∃ r ∈ sectorsAux titleF l mf, r.code = p.1 := by
  intro l
  induction l with
  | nil => intro mf p hp _; cases hp
  | cons q rest ih =>
    intro mf p hp hnm
    rcases List.mem_cons.mp hp with rfl | hpr
    · have hstep : sectorsAux titleF (p :: rest) mf =
          ⟨p.1, titleF p.2, 2, ""⟩ :: sectorsAux titleF rest mf := by
        simp only [sectorsAux]; rw [if_neg (by rw [hnm]; exact Bool.false_ne_true)]
      rw [hstep]
      exact ⟨⟨p.1, titleF p.2, 2, ""⟩, List.mem_cons_self _ _, rfl⟩
    · by_cases hq : mfgCodes.contains q.1 = true
      · cases mf with
        | true =>
          have hstep : sectorsAux titleF (q :: rest) true = sectorsAux titleF rest true := by
            simp only [sectorsAux]; rw [if_pos hq, if_pos trivial]
          rw [hstep]
          exact ih true p hpr hnm
        | false =>
          have hstep : sectorsAux titleF (q :: rest) false =
              ⟨"31-33", "Manufacturing", 2, ""⟩ :: sectorsAux titleF rest true := by
            simp only [sectorsAux]; rw [if_pos hq, if_neg (by simp)]
          rw [hstep]
          obtain ⟨r, hr, hrc⟩ := ih true p hpr hnm
          exact ⟨r, List.mem_cons_of_mem _ hr, hrc⟩
      · have hstep : sectorsAux titleF (q :: rest) mf =
            ⟨q.1, titleF q.2, 2, ""⟩ :: sectorsAux titleF rest mf := by
          simp only [sectorsAux]; rw [if_neg hq]
        rw [hstep]
        obtain ⟨r, hr, hrc⟩ := ih mf p hpr hnm
        exact ⟨r, List.mem_cons_of_mem _ hr, hrc⟩

/-- When some filtered row carries a raw manufacturing code and the flag
is unset, the loop emits the synthetic 31-33 record. -/
theorem sectorsAux_mem_3133 (titleF : String → String) :
    ∀ l : List (String × String), (∃ p ∈ l, mfgCodes.contains p.1 = true) →
    ∃ r ∈ sectorsAux titleF l false, r.code = "31-33" := by
  intro l
  induction l with
  | nil => rintro ⟨p, hp, _⟩; cases hp
  | cons q rest ih =>
    rintro ⟨p, hp, hpm⟩
    by_cases hq : mfgCodes.contains q.1 = true
    · have hstep : sectorsAux titleF (q :: rest) false =
          ⟨"31-33", "Manufacturing", 2, ""⟩ :: sectorsAux titleF rest true := by
        simp only [sectorsAux]; rw [if_pos hq, if_neg (by simp)]
      rw [hstep]
      exact ⟨⟨"31-33", "Manufacturing", 2, ""⟩, List.mem_cons_self _ _, rfl⟩
    · have hstep : sectorsAux titleF (q :: rest) false =
          ⟨q.1, titleF q.2, 2, ""⟩ :: sectorsAux titleF rest false := by
        simp only [sectorsAux]; rw [if_neg hq]
      rw [hstep]
      rcases List.mem_cons.mp hp with rfl | hpr
      · exact absurd hpm hq
      · obtain ⟨r, hr, hrc⟩ := ih ⟨p, hpr, hpm⟩
        exact ⟨r, List.mem_cons_of_mem _ hr, hrc⟩

/-- Lifting a code found in the built sector list through the sort and
the escaping of the write step. -/
theorem cleanSectors_mem_code (rows : List Row) (c : String)
    (h : ∃ r ∈ sectorsAux clean_title (sectorRawFilter (cleanDropped rows)) false,
      r.code = c) :
    ∃ s ∈ cleanSectors rows, s.code = c := by
  obtain ⟨r, hr, hrc⟩ := h
  refine ⟨escapeTitle r, ?_, hrc⟩
  unfold cleanSectors
  exact List.mem_map_of_mem escapeTitle
    ((sortByTitle_perm _).mem_iff.mpr hr)

/-- Membership in the emitted clean category table decomposes to a
filtered source row. -/
theorem cleanCategories_mem (rows : List Row) (r : NAICSCode) :
    r ∈ cleanCategories rows ↔
      ∃ p ∈ catFilter (cleanDropped rows),
        catRecord (fun t => escapeStr (clean_title t)) p = r := by
  unfold cleanCategories
  rw [(sortByTitle_perm _).mem_iff, List.mem_map]

/-- Membership in the emitted clean facility-type table decomposes to a
filtered source row. -/
theorem cleanTypes_mem (rows : List Row) (r : NAICSCode) :
    r ∈ cleanTypes rows ↔
      ∃ p ∈ typeFilter (cleanDropped rows),
        typeRecord (fun t => escapeStr (clean_title t)) p = r := by
  unfold cleanTypes
  rw [(sortByTitle_perm _).mem_iff, List.mem_map]
/-- Round trip between character lists and strings. -/
theorem data_asString (l : List Char) : (List.asString l).data = l := rfl

/-- Length of a Python slice. -/
theorem strLen_strTake (n : Nat) (s : String) : strLen (strTake n s) = min n (strLen s) := by
  unfold strLen strTake
  rw [data_asString]
  exact List.length_take n s.data

/-- Nested Python slices keep the shorter one. -/
theorem strTake_strTake (s : String) : strTake 2 (strTake 3 s) = strTake 2 s := by
  unfold strTake
  rw [data_asString, List.take_take, (by decide : (2 ⊓ 3 : Nat) = 2)]

/-- C5 counterexample: a workbook holding only the category row 111 and
no sector row emits a category whose parent 11 matches no emitted
sector record. -/
theorem C5_counterexample :
    ¬ (∀ c ∈ cleanCategories [⟨some "111", "t"⟩],
        ∃ s ∈ cleanSectors [⟨some "111", "t"⟩], s.code = c.parent) := by decide

/-- A row of the 2022-structure sheet whose code cell is present and
non-empty. -/
def goodRow (r : Row) : Bool :=
  match r.naicsCode with
  | none => false
  | some c => c != ""

/-- A row of the level sheet whose code cell is present and non-empty. -/
def goodLRow (r : LRow) : Bool :=
  match r.code with
  | none => false
  | some c => c != ""

/-- The per-row normalisation of generate_naics.py. -/
def prepEntry (r : LRow) : String × Nat × String :=
  ((replaceDotZero (pyStr r.code).data).asString, r.level, r.classTitle)

/-- genPrep is the row-wise map of the normalisation. -/
theorem genPrep_eq_map (lrows : List LRow) : genPrep lrows = lrows.map prepEntry := rfl

/-- Filtering the dropped rows by any predicate that rejects the empty
code ignores rows with a missing or empty code cell. -/
theorem filter_cleanDropped_good (cond : String × String → Bool)
    (hempty : ∀ t, cond ("", t) = false) (rows : List Row) :
    List.filter cond (cleanDropped (rows.filter goodRow)) =
      List.filter cond (cleanDropped rows) := by
  unfold cleanDropped
  rw [List.filterMap_filter, List.filter_filterMap, List.filter_filterMap]
  apply List.filterMap_congr
  intro r _
  cases hr : r.naicsCode with
  | none =>
    have hg : goodRow r = false := by unfold goodRow; rw [hr]
    rw [hg]
    simp [hr]
  | some c =>
    have hg : goodRow r = (c != "") := by unfold goodRow; rw [hr]
    rw [hg]
    by_cases hc : c = ""
    · subst hc
      simp [hr, Option.filter, hempty r.naicsTitle]
    · simp [hr, hc]

/-- Boolean any over a mapped list. -/
theorem any_map_general {α β : Type} (f : α → β) (p : β → Bool) :
    ∀ l : List α, (l.map f).any p = l.any (fun a => p (f a)) := by
  intro l
  induction l with
  | nil => rfl
  | cons a t ih => simp only [List.map_cons, List.any_cons, ih]

/-- Boolean any respects pointwise equality on the list members. -/
theorem any_congr_mem {α : Type} (l : List α) (p q : α → Bool)
    (h : ∀ a ∈ l, p a = q a) : l.any p = l.any q := by
  induction l with
  | nil => rfl
  | cons a t ih =>
    simp only [List.any_cons]
    rw [h a (List.mem_cons_self a t), ih (fun x hx => h x (List.mem_cons_of_mem a hx))]

/-- The normalised code of a dropped row is the nan string or empty. -/
theorem bad_prep_code (r : LRow) (h : goodLRow r = false) :
    (replaceDotZero (pyStr r.code).data).asString = "nan" ∨
    (replaceDotZero (pyStr r.code).data).asString = "" := by
  cases hr : r.code with
  | none => left; rfl
  | some c =>
    have hb : (c != "") = false := by unfold goodLRow at h; rw [hr] at h; exact h
    have hc : c = "" := by
      by_cases hcc : c = ""
      · exact hcc
      · rw [bne_eq_false_iff_eq] at hb
        exact hb
    right; rw [hc]; rfl

/-- Neither bad prefix matches an allow-listed code. -/
theorem eligible_ne_bad :
    ∀ c ∈ eligible_sectors,
      ((strTake 2 "nan" == c) = false) ∧ ((strTake 2 "" == c) = false) := by decide
/-- The sector presence test of generate_naics.py ignores rows with a
missing or empty code cell. -/
theorem genAny_good (lrows : List LRow) (c : String) (hc : c ∈ eligible_sectors) :
    ((genLevel 2 (genPrep (lrows.filter goodLRow))).any fun e => strTake 2 e.1 == c) =
    ((genLevel 2 (genPrep lrows)).any fun e => strTake 2 e.1 == c) := by
  unfold genLevel
  rw [genPrep_eq_map, genPrep_eq_map, List.filter_map, List.filter_map,
    any_map_general, any_map_general, List.any_filter, List.any_filter, List.any_filter]
  apply any_congr_mem
  intro r _
  by_cases hg : goodLRow r = true
  · rw [hg, Bool.true_and]
  · have hg2 : goodLRow r = false := by
      cases h2 : goodLRow r
      · rfl
      · exact absurd h2 hg
    rw [hg2, Bool.false_and]
    symm
    show (decide ((prepEntry r).2.1 = 2) && (strTake 2 (prepEntry r).1 == c)) = false
    unfold prepEntry
    rcases bad_prep_code r hg2 with hbad | hbad
    · rw [hbad, (eligible_ne_bad c hc).1, Bool.and_false]
    · rw [hbad, (eligible_ne_bad c hc).2, Bool.and_false]
/-- A level-filtered filterMap whose function rejects the two bad
normalised codes ignores rows with a missing or empty code cell. -/
theorem genFilterMap_good (n : Nat) (f : String × Nat × String → Option NAICSCode)
    (hnan : ∀ lvl t, f ("nan", lvl, t) = none)
    (hemp : ∀ lvl t, f ("", lvl, t) = none)
    (lrows : List LRow) :
    (genLevel n (genPrep (lrows.filter goodLRow))).filterMap f =
    (genLevel n (genPrep lrows)).filterMap f := by
  unfold genLevel
  rw [genPrep_eq_map, genPrep_eq_map, List.filter_map, List.filter_map,
    List.filterMap_map, List.filterMap_map, List.filterMap_filter, List.filterMap_filter,
    List.filterMap_filter]
  apply List.filterMap_congr
  intro r _
  by_cases hg : goodLRow r = true
  · rw [if_pos hg]
  · have hg2 : goodLRow r = false := by
      cases h2 : goodLRow r
      · rfl
      · exact absurd h2 hg
    rw [if_neg (by rw [hg2]; exact Bool.false_ne_true)]
    symm
    show (if decide ((prepEntry r).2.1 = n) = true then f (prepEntry r) else none) = none
    by_cases hl : decide ((prepEntry r).2.1 = n) = true
    · rw [if_pos hl]
      show f ((replaceDotZero (pyStr r.code).data).asString, r.level, r.classTitle) = none
      rcases bad_prep_code r hg2 with hbad | hbad
      · rw [hbad]; exact hnan r.level r.classTitle
      · rw [hbad]; exact hemp r.level r.classTitle
    · rw [if_neg hl]
/-- C8: in every script variant, rows whose code cell is missing (NaN)
or empty contribute nothing: filtering them away first leaves all nine
emitted tables unchanged, and the pipelines are total functions, so such
rows produce no record and no error.  clean_naics.py and extract_naics.py
drop missing codes before classification; generate_naics.py first turns
them into the string nan, which then fails every allow-list test. -/
theorem C8_missing_and_empty_rows_dropped (rows : List Row) (lrows : List LRow) :
    cleanSectors (rows.filter goodRow) = cleanSectors rows ∧
    cleanCategories (rows.filter goodRow) = cleanCategories rows ∧
    cleanTypes (rows.filter goodRow) = cleanTypes rows ∧
    extractSectors (rows.filter goodRow) = extractSectors rows ∧
    extractCategories (rows.filter goodRow) = extractCategories rows ∧
    extractTypes (rows.filter goodRow) = extractTypes rows ∧
    genSectors (lrows.filter goodLRow) = genSectors lrows ∧
    genCategories (lrows.filter goodLRow) = genCategories lrows ∧
    genTypes (lrows.filter goodLRow) = genTypes lrows := by
  refine ⟨?_, ?_, ?_, ?_, ?_, ?_, ?_, ?_, ?_⟩
  · unfold cleanSectors sectorRawFilter
    rw [filter_cleanDropped_good
      (fun p : String × String => strLen p.1 = 2 && eligible_sectors.contains p.1)
      (fun t => rfl) rows]
  · unfold cleanCategories catFilter
    rw [filter_cleanDropped_good
      (fun p : String × String => strLen p.1 = 3 && eligible_sectors.contains (strTake 2 p.1))
      (fun t => rfl) rows]
  · unfold cleanTypes typeFilter
    rw [filter_cleanDropped_good
      (fun p : String × String => strLen p.1 = 6 && eligible_sectors.contains (strTake 2 p.1))
      (fun t => rfl) rows]
  · unfold extractSectors sectorRawFilter
    rw [filter_cleanDropped_good
      (fun p : String × String => strLen p.1 = 2 && eligible_sectors.contains p.1)
      (fun t => rfl) rows]
  · unfold extractCategories catFilter
    rw [filter_cleanDropped_good
      (fun p : String × String => strLen p.1 = 3 && eligible_sectors.contains (strTake 2 p.1))
      (fun t => rfl) rows]
  · unfold extractTypes typeFilter
    rw [filter_cleanDropped_good
      (fun p : String × String => strLen p.1 = 6 && eligible_sectors.contains (strTake 2 p.1))
      (fun t => rfl) rows]
  · unfold genSectors
    apply List.filterMap_congr
    intro c hc
    simp only [genAny_good lrows c hc]
  · unfold genCategories
    exact genFilterMap_good 3 _ (fun lvl t => rfl) (fun lvl t => rfl) lrows
  · unfold genTypes
    exact genFilterMap_good 6 _ (fun lvl t => rfl) (fun lvl t => rfl) lrows
/-- Membership in the emitted extract category table decomposes to a
filtered source row. -/
theorem extractCategories_mem (rows : List Row) (r : NAICSCode) :
    r ∈ extractCategories rows ↔
      ∃ p ∈ catFilter (cleanDropped rows), catRecord escapeStr p = r := by
  unfold extractCategories
  exact List.mem_map

/-- Membership in the emitted extract facility-type table decomposes to
a filtered source row. -/
theorem extractTypes_mem (rows : List Row) (r : NAICSCode) :
    r ∈ extractTypes rows ↔
      ∃ p ∈ typeFilter (cleanDropped rows), typeRecord escapeStr p = r := by
  unfold extractTypes
  exact List.mem_map

/-- Lifting a code found in the built sector list through the escaping
of the extract write step. -/
theorem extractSectors_mem_code (rows : List Row) (c : String)
    (h : ∃ r ∈ sectorsAux id (sectorRawFilter (cleanDropped rows)) false, r.code = c) :
    ∃ s ∈ extractSectors rows, s.code = c := by
  obtain ⟨r, hr, hrc⟩ := h
  exact ⟨escapeTitle r, List.mem_map_of_mem escapeTitle hr, hrc⟩

/-- When the 2-character prefix of an eligible 3-character row is itself
present as a row, the shared sector loop emits a record whose code is
the folded parent of that row, whatever the title cleaning. -/
theorem sector_exists_for_parent (titleF : String → String)
    (data : List (String × String)) (p : String × String)
    (hlen : strLen p.1 = 3)
    (helig : eligible_sectors.contains (strTake 2 p.1) = true)
    (hq : ∃ q ∈ data, q.1 = strTake 2 p.1) :
    ∃ r ∈ sectorsAux titleF (sectorRawFilter data) false,
      r.code = foldMfg (strTake 2 p.1) := by
  obtain ⟨q, hqd, hqe⟩ := hq
  have hqlen : strLen q.1 = 2 := by
    rw [hqe, strLen_strTake, hlen]
    decide
  have hqelig : eligible_sectors.contains q.1 = true := by rw [hqe]; exact helig
  have hqfilter : q ∈ sectorRawFilter data := by
    apply List.mem_filter.mpr
    refine ⟨hqd, ?_⟩
    rw [Bool.and_eq_true]
    exact ⟨decide_eq_true hqlen, hqelig⟩
  by_cases hmfg : mfgCodes.contains (strTake 2 p.1) = true
  · have hfold : foldMfg (strTake 2 p.1) = "31-33" := by
      unfold foldMfg; rw [if_pos hmfg]
    rw [hfold]
    apply sectorsAux_mem_3133
    exact ⟨q, hqfilter, by rw [hqe]; exact hmfg⟩
  · have hmfg2 : mfgCodes.contains q.1 = false := by
      rw [hqe]
      cases h2 : mfgCodes.contains (strTake 2 p.1) with
      | false => rfl
      | true => exact absurd h2 hmfg
    have hfold : foldMfg (strTake 2 p.1) = q.1 := by
      unfold foldMfg; rw [if_neg hmfg, ← hqe]
    rw [hfold]
    exact sectorsAux_mem_of_nonmfg titleF _ false q hqfilter hmfg2

/-- The 3-character prefix row of an eligible 6-character row passes the
category filter. -/
theorem catFilter_prefix_mem (data : List (String × String))
    (p q : String × String) (hlen : strLen p.1 = 6)
    (helig : eligible_sectors.contains (strTake 2 p.1) = true)
    (hqd : q ∈ data) (hqe : q.1 = strTake 3 p.1) :
    q ∈ catFilter data := by
  have hqlen : strLen q.1 = 3 := by
    rw [hqe, strLen_strTake, hlen]
    decide
  have hq2 : strTake 2 q.1 = strTake 2 p.1 := by rw [hqe, strTake_strTake]
  apply List.mem_filter.mpr
  refine ⟨hqd, ?_⟩
  rw [Bool.and_eq_true]
  exact ⟨decide_eq_true hqlen, by rw [hq2]; exact helig⟩

/-- Membership in the generate category table decomposes to a level-3
row passing the allow-list test. -/
theorem genCategories_mem (lrows : List LRow) (r : NAICSCode) :
    r ∈ genCategories lrows ↔
      ∃ e ∈ genLevel 3 (genPrep lrows),
        (decide (2 ≤ strLen e.1) && eligible_sectors.contains (strTake 2 e.1)) = true ∧
        (⟨e.1, escapeStr e.2.2, 3, strTake 2 e.1⟩ : NAICSCode) = r := by
  unfold genCategories
  rw [List.mem_filterMap]
  constructor
  · rintro ⟨e, he, hfe⟩
    by_cases hc : (decide (2 ≤ strLen e.1) && eligible_sectors.contains (strTake 2 e.1)) = true
    · rw [if_pos hc] at hfe
      exact ⟨e, he, hc, Option.some_inj.mp hfe⟩
    · rw [if_neg hc] at hfe
      exact Option.noConfusion hfe
  · rintro ⟨e, he, hc, hre⟩
    exact ⟨e, he, by rw [if_pos hc, hre]⟩

/-- Membership in the generate facility-type table decomposes to a
level-6 row passing the allow-list test. -/
theorem genTypes_mem (lrows : List LRow) (r : NAICSCode) :
    r ∈ genTypes lrows ↔
      ∃ e ∈ genLevel 6 (genPrep lrows),
        (decide (2 ≤ strLen e.1) && eligible_sectors.contains (strTake 2 e.1)) = true ∧
        (⟨e.1, escapeStr e.2.2, 6, strTake 3 e.1⟩ : NAICSCode) = r := by
  unfold genTypes
  rw [List.mem_filterMap]
  constructor
  · rintro ⟨e, he, hfe⟩
    by_cases hc : (decide (2 ≤ strLen e.1) && eligible_sectors.contains (strTake 2 e.1)) = true
    · rw [if_pos hc] at hfe
      exact ⟨e, he, hc, Option.some_inj.mp hfe⟩
    · rw [if_neg hc] at hfe
      exact Option.noConfusion hfe
  · rintro ⟨e, he, hc, hre⟩
    exact ⟨e, he, by rw [if_pos hc, hre]⟩

/-- An allow-listed code carried as prefix by some level-2 row is the
code of an emitted generate sector record. -/
theorem genSectors_mem_code (lrows : List LRow) (c : String)
    (hc : c ∈ eligible_sectors)
    (hany : ((genLevel 2 (genPrep lrows)).any fun e => strTake 2 e.1 == c) = true) :
    ∃ s ∈ genSectors lrows, s.code = c := by
  refine ⟨⟨c, escapeStr (hardcodedTitle c), 2, ""⟩, ?_, rfl⟩
  unfold genSectors
  apply List.mem_filterMap.mpr
  exact ⟨c, hc, by rw [if_pos hany]⟩
/-- C5 (amended): the emitted tables of all three scripts are
referentially closed on every prefix-closed workbook: for clean_naics.py
and extract_naics.py, whenever each eligible 3-character row has its
2-character prefix present as a row and each eligible 6-character row
has its 3-character prefix present as a row; for generate_naics.py,
whenever each eligible level-3 row has some level-2 row carrying its
2-character prefix and each eligible level-6 row has its 3-character
prefix present as a level-3 row.  An arbitrary workbook can break
closure. -/
theorem C5_closure_amended (rows : List Row) (lrows : List LRow)
    (H3 : ∀ p ∈ cleanDropped rows, strLen p.1 = 3 →
      eligible_sectors.contains (strTake 2 p.1) = true →
      ∃ q ∈ cleanDropped rows, q.1 = strTake 2 p.1)
    (H6 : ∀ p ∈ cleanDropped rows, strLen p.1 = 6 →
      eligible_sectors.contains (strTake 2 p.1) = true →
      ∃ q ∈ cleanDropped rows, q.1 = strTake 3 p.1)
    (H3g : ∀ e ∈ genLevel 3 (genPrep lrows), 2 ≤ strLen e.1 →
      eligible_sectors.contains (strTake 2 e.1) = true →
      ∃ e2 ∈ genLevel 2 (genPrep lrows), strTake 2 e2.1 = strTake 2 e.1)
    (H6g : ∀ e ∈ genLevel 6 (genPrep lrows), 2 ≤ strLen e.1 →
      eligible_sectors.contains (strTake 2 e.1) = true →
      ∃ e3 ∈ genLevel 3 (genPrep lrows), e3.1 = strTake 3 e.1) :
    (∀ c ∈ cleanCategories rows, ∃ s ∈ cleanSectors rows, s.code = c.parent) ∧
    (∀ t ∈ cleanTypes rows, ∃ c ∈ cleanCategories rows, c.code = t.parent) ∧
    (∀ c ∈ extractCategories rows, ∃ s ∈ extractSectors rows, s.code = c.parent) ∧
    (∀ t ∈ extractTypes rows, ∃ c ∈ extractCategories rows, c.code = t.parent) ∧
    (∀ c ∈ genCategories lrows, ∃ s ∈ genSectors lrows, s.code = c.parent) ∧
    (∀ t ∈ genTypes lrows, ∃ c ∈ genCategories lrows, c.code = t.parent) := by
  refine ⟨?_, ?_, ?_, ?_, ?_, ?_⟩
  · intro c hc
    obtain ⟨p, hpf, hpr⟩ := (cleanCategories_mem rows c).mp hc
    have hfd := List.mem_filter.mp hpf
    have hcond := hfd.2
    rw [Bool.and_eq_true] at hcond
    have hlen : strLen p.1 = 3 := of_decide_eq_true hcond.1
    have helig := hcond.2
    have hparent : c.parent = foldMfg (strTake 2 p.1) := by rw [← hpr]; rfl
    rw [hparent]
    exact cleanSectors_mem_code rows _
      (sector_exists_for_parent clean_title _ p hlen helig (H3 p hfd.1 hlen helig))
  · intro t ht
    obtain ⟨p, hpf, hpr⟩ := (cleanTypes_mem rows t).mp ht
    have hfd := List.mem_filter.mp hpf
    have hcond := hfd.2
    rw [Bool.and_eq_true] at hcond
    have hlen : strLen p.1 = 6 := of_decide_eq_true hcond.1
    have helig := hcond.2
    obtain ⟨q, hqd, hqe⟩ := H6 p hfd.1 hlen helig
    have hqf := catFilter_prefix_mem _ p q hlen helig hqd hqe
    refine ⟨catRecord (fun x => escapeStr (clean_title x)) q,
      (cleanCategories_mem rows _).mpr ⟨q, hqf, rfl⟩, ?_⟩
    have hpar : t.parent = strTake 3 p.1 := by rw [← hpr]; rfl
    rw [hpar]
    exact hqe
  · intro c hc
    obtain ⟨p, hpf, hpr⟩ := (extractCategories_mem rows c).mp hc
    have hfd := List.mem_filter.mp hpf
    have hcond := hfd.2
    rw [Bool.and_eq_true] at hcond
    have hlen : strLen p.1 = 3 := of_decide_eq_true hcond.1
    have helig := hcond.2
    have hparent : c.parent = foldMfg (strTake 2 p.1) := by rw [← hpr]; rfl
    rw [hparent]
    exact extractSectors_mem_code rows _
      (sector_exists_for_parent id _ p hlen helig (H3 p hfd.1 hlen helig))
  · intro t ht
    obtain ⟨p, hpf, hpr⟩ := (extractTypes_mem rows t).mp ht
    have hfd := List.mem_filter.mp hpf
    have hcond := hfd.2
    rw [Bool.and_eq_true] at hcond
    have hlen : strLen p.1 = 6 := of_decide_eq_true hcond.1
    have helig := hcond.2
    obtain ⟨q, hqd, hqe⟩ := H6 p hfd.1 hlen helig
    have hqf := catFilter_prefix_mem _ p q hlen helig hqd hqe
    refine ⟨catRecord escapeStr q,
      (extractCategories_mem rows _).mpr ⟨q, hqf, rfl⟩, ?_⟩
    have hpar : t.parent = strTake 3 p.1 := by rw [← hpr]; rfl
    rw [hpar]
    exact hqe
  · intro c hc
    obtain ⟨e, he, hcond, hre⟩ := (genCategories_mem lrows c).mp hc
    rw [Bool.and_eq_true] at hcond
    have hlen2 : 2 ≤ strLen e.1 := of_decide_eq_true hcond.1
    have helig := hcond.2
    obtain ⟨e2, he2, he2e⟩ := H3g e he hlen2 helig
    have hany : ((genLevel 2 (genPrep lrows)).any fun x => strTake 2 x.1 == strTake 2 e.1)
        = true := by
      rw [List.any_eq_true]
      exact ⟨e2, he2, by rw [he2e]; exact beq_self_eq_true _⟩
    have hparent : c.parent = strTake 2 e.1 := by rw [← hre]
    rw [hparent]
    exact genSectors_mem_code lrows (strTake 2 e.1) ((containsIffMem _ _).mp helig) hany
  · intro t ht
    obtain ⟨e, he, hcond, hre⟩ := (genTypes_mem lrows t).mp ht
    rw [Bool.and_eq_true] at hcond
    have hlen2 : 2 ≤ strLen e.1 := of_decide_eq_true hcond.1
    have helig := hcond.2
    obtain ⟨e3, he3, he3e⟩ := H6g e he hlen2 helig
    have hlen3 : 2 ≤ strLen e3.1 := by
      rw [he3e, strLen_strTake, le_min_iff]
      exact ⟨by decide, hlen2⟩
    have h2pref : strTake 2 e3.1 = strTake 2 e.1 := by rw [he3e, strTake_strTake]
    have hcond3 : (decide (2 ≤ strLen e3.1) &&
        eligible_sectors.contains (strTake 2 e3.1)) = true := by
      rw [Bool.and_eq_true]
      exact ⟨decide_eq_true hlen3, by rw [h2pref]; exact helig⟩
    refine ⟨⟨e3.1, escapeStr e3.2.2, 3, strTake 2 e3.1⟩,
      (genCategories_mem lrows _).mpr ⟨e3, he3, hcond3, rfl⟩, ?_⟩
    have hpar : t.parent = strTake 3 e.1 := by rw [← hre]
    rw [hpar]
    exact he3e

/-- A prefix-closed concrete workbook for the 2022-structure sheet. -/
def c5rows : List Row :=
  [⟨some "11", "Agr"⟩, ⟨some "111", "Crop"⟩, ⟨some "111110", "Soy"⟩,
   ⟨some "31", "Mfg"⟩, ⟨some "311", "Food"⟩, ⟨some "311111", "DogFood"⟩]

/-- A prefix-closed concrete workbook for the level sheet. -/
def c5lrows : List LRow :=
  [⟨some "31", 2, "Mfg"⟩, ⟨some "311", 3, "Food"⟩, ⟨some "311111", 6, "DogFood"⟩]

/-- Witness for C5: on prefix-closed workbooks the emitted category with
code 311 has its parent among the emitted sector codes, in the clean
variant (folded parent) and the generate variant (raw parent). -/
theorem C5_witness :
    (∃ s ∈ cleanSectors c5rows, s.code = (⟨"311", "Food", 3, "31-33"⟩ : NAICSCode).parent) ∧
    (∃ s ∈ genSectors c5lrows, s.code = (⟨"311", "Food", 3, "31"⟩ : NAICSCode).parent) := by
  have h := C5_closure_amended c5rows c5lrows (by decide) (by decide) (by decide) (by decide)
  exact ⟨h.1 ⟨"311", "Food", 3, "31-33"⟩ (by decide),
    h.2.2.2.2.1 ⟨"311", "Food", 3, "31"⟩ (by decide)⟩
